import Mathlib

/-
Verification of the miximum composition engine: a shallow embedding of
`src/design.ts` (the `design` combinator), `component.ts` (`makeCreate`,
`makeWithTransform`, `makeExtendTransform`) and `compose.ts` (`compose`,
`createListComposedInstance`, `createMapComposedInstance`), together with
the fragment of JavaScript object semantics (property descriptors,
prototype chains, ordinary get and set, the proxy traps) that those
functions rely on.
-/

namespace Miximum

/-- Property keys: the TypeScript code keys its maps with strings or symbols;
we model the key universe as strings. -/
abbrev Key := String

/-- JavaScript values, restricted to the shapes the composition engine
inspects: `undefined`, primitives, plain function values, and function
values bound to an instance (the result of `Function.prototype.bind`).
A bound function records the index of the instance it was bound to in the
composed instance list. -/
inductive Value where
  | undefined
  | int (n : Int)
  | str (s : String)
  | boolV (b : Bool)
  | fn (id : Nat)
  | boundFn (id : Nat) (self : Nat)
deriving DecidableEq, Repr

/-- Bodies of getter functions: a getter either returns a closed-over
constant or reads a data field of `this`. -/
inductive GetterBody where
  | constG (v : Value)
  | readField (k : Key)
deriving DecidableEq, Repr

/-- Bodies of setter functions: a setter either stores its argument in a
data field of `this` or ignores it. -/
inductive SetterBody where
  | storeField (k : Key)
  | ignoreSet
deriving DecidableEq, Repr

/-- A property descriptor: either a data descriptor (value and writable
flag) or an accessor descriptor (optional getter and optional setter),
as produced by `Object.getOwnPropertyDescriptor`. -/
inductive Desc where
  | dataDesc (v : Value) (writable : Bool)
  | accessor (g : Option GetterBody) (s : Option SetterBody)
deriving DecidableEq, Repr

/-- An ordered list of own properties of one object (or one prototype). -/
abbrev PropList := List (Key × Desc)

/-- A JavaScript object: its own properties in `Reflect.ownKeys` order and
its prototype chain (each level's own properties), listed outward and
stopping before `Object.prototype` exactly as the plan-construction loop
does. -/
structure Obj where
  own : PropList
  protos : List PropList
deriving DecidableEq, Repr

/-- The object with no own properties and `Object.prototype` as prototype. -/
def emptyObj : Obj := ⟨[], []⟩

/-- One record of the composition plan: owning instance index, the captured
property descriptor, and whether it came from a prototype (the code stores
the prototype object itself; only its truthiness is consumed). -/
structure Entry where
  index : Nat
  desc : Desc
  fromProto : Bool
deriving DecidableEq, Repr

/-- The composition plan, modelling the JavaScript
`Map<string | symbol, { index, desc, proto }>` with insertion order. -/
abbrev Plan := List (Key × Entry)

/-- JavaScript `Map.prototype.get`. -/
def mapGet : Plan → Key → Option Entry
  | [], _ => none
  | (k', e) :: rest, k => if k' = k then some e else mapGet rest k

/-- JavaScript `Map.prototype.has`. -/
def mapHas (m : Plan) (k : Key) : Bool := (mapGet m k).isSome

/-- JavaScript `Map.prototype.set`: replaces the value in place when the
key exists, otherwise appends. -/
def mapSet : Plan → Key → Entry → Plan
  | [], k, e => [(k, e)]
  | (k', e') :: rest, k, e =>
    if k' = k then (k, e) :: rest else (k', e') :: mapSet rest k e

/-- Iteration order of `Map.prototype.keys`. -/
def mapKeys (m : Plan) : List Key := m.map (·.1)

/-- Whether a property list contains a key. -/
def propsHave : PropList → Key → Bool
  | [], _ => false
  | (k', _) :: rest, k => if k' = k then true else propsHave rest k

/-- First descriptor for a key in a property list
(`Object.getOwnPropertyDescriptor`). -/
def findProp : PropList → Key → Option Desc
  | [], _ => none
  | (k', d) :: rest, k => if k' = k then some d else findProp rest k

/-- First descriptor for a key along a prototype chain. -/
def findProtoProp : List PropList → Key → Option Desc
  | [], _ => none
  | lvl :: rest, k =>
    match findProp lvl k with
    | some d => some d
    | none => findProtoProp rest k

/-- Whether any prototype level contains a key. -/
def protoHave (levels : List PropList) (k : Key) : Bool :=
  levels.any (fun lvl => propsHave lvl k)

/-- The instance defines the key as an own property. -/
def ownDefines (o : Obj) (k : Key) : Bool := propsHave o.own k

/-- The instance defines the key somewhere on its prototype chain. -/
def protoDefines (o : Obj) (k : Key) : Bool := protoHave o.protos k

/-- The instance defines the key directly or via its prototype chain. -/
def definesKey (o : Obj) (k : Key) : Bool := ownDefines o k || protoDefines o k

/-- The own-key pass of the plan-construction loop: for every own key of
instance `i`, unconditionally `propertyMap.set(key, { index: i, desc,
proto: undefined })`. -/
def addOwnKeys (i : Nat) : PropList → Plan → Plan
  | [], plan => plan
  | (k, d) :: rest, plan => addOwnKeys i rest (mapSet plan k ⟨i, d, false⟩)

/-- One prototype level of the plan-construction loop: for every key of the
prototype, record it only `if (!propertyMap.has(key))`. -/
def addProtoLevel (i : Nat) : PropList → Plan → Plan
  | [], plan => plan
  | (k, d) :: rest, plan =>
    addProtoLevel i rest (if mapHas plan k then plan else mapSet plan k ⟨i, d, true⟩)

/-- The prototype-chain walk of the plan-construction loop, outward until
(excluding) `Object.prototype`. -/
def addProtoKeys (i : Nat) : List PropList → Plan → Plan
  | [], plan => plan
  | lvl :: rest, plan => addProtoKeys i rest (addProtoLevel i lvl plan)

/-- Processing of one instance in the plan-construction loop: own keys
first, then the prototype chain. -/
def processInst (i : Nat) (o : Obj) (plan : Plan) : Plan :=
  addProtoKeys i o.protos (addOwnKeys i o.own plan)

/-- The indexed loop of `createListComposedInstance` building the plan. -/
def buildAux : Nat → List Obj → Plan → Plan
  | _, [], plan => plan
  | i, o :: rest, plan => buildAux (i + 1) rest (processInst i o plan)

/-- The composition plan built from the created instances
(`createListComposedInstance`, plan-construction branch). -/
def buildPropertyMap (instances : List Obj) : Plan := buildAux 0 instances []

/-- The getter of a descriptor when `typeof desc.get === 'function'`. -/
def getterOf : Desc → Option GetterBody
  | .accessor (some g) _ => some g
  | _ => none

/-- The setter of a descriptor when `typeof desc.set === 'function'`. -/
def setterOf : Desc → Option SetterBody
  | .accessor _ (some s) => some s
  | _ => none

/-- The `value` field of a descriptor; `undefined` on accessor
descriptors. -/
def descValue : Desc → Value
  | .dataDesc v _ => v
  | .accessor _ _ => .undefined

/-- The truthiness of `desc.writable`; `undefined` (falsy) on accessor
descriptors. -/
def descWritable : Desc → Bool
  | .dataDesc _ w => w
  | .accessor _ _ => false

/-- Whether `typeof v === 'function'`. -/
def isFnValue : Value → Bool
  | .fn _ => true
  | .boundFn _ _ => true
  | _ => false

/-- `v.bind(instances[i])`: binding a plain function records the receiver;
binding an already-bound function keeps the original receiver; only used on
function values. -/
def bindValue : Value → Nat → Value
  | .fn id, i => .boundFn id i
  | v, _ => v

/-- A data-field read used by getter bodies: own properties first, then the
prototype chain, yielding the data value (accessor fields read as
`undefined` here, keeping getter evaluation stratified). -/
def readDataField (o : Obj) (k : Key) : Value :=
  match findProp o.own k with
  | some (.dataDesc v _) => v
  | some (.accessor _ _) => .undefined
  | none =>
    match findProtoProp o.protos k with
    | some (.dataDesc v _) => v
    | _ => .undefined

/-- Invoking a getter with `this` bound to an instance
(`desc.get.call(inst)`). -/
def callGetter : GetterBody → Obj → Value
  | .constG v, _ => v
  | .readField k, o => readDataField o k

/-- Overwrite the value of an existing own data property in place. -/
def updateOwnValue : PropList → Key → Value → PropList
  | [], _, _ => []
  | (k', d) :: rest, k, v =>
    if k' = k then
      (k, match d with
          | .dataDesc _ w => .dataDesc v w
          | other => other) :: rest
    else (k', d) :: updateOwnValue rest k v

/-- Store a value into an own data field of `this`: update an existing own
data property or create a fresh writable one. -/
def defineOwnData (o : Obj) (k : Key) (v : Value) : Obj :=
  if propsHave o.own k then ⟨updateOwnValue o.own k v, o.protos⟩
  else ⟨o.own ++ [(k, .dataDesc v true)], o.protos⟩

/-- Invoking a setter with `this` bound to an instance
(`desc.set.call(inst, value)`). -/
def callSetter : SetterBody → Obj → Value → Obj
  | .storeField k, o, v => defineOwnData o k v
  | .ignoreSet, o, _ => o

/-- Ordinary property read `inst[prop]`: own descriptor first, then the
prototype chain; accessor properties invoke their getter with `this` being
the instance. -/
def ordinaryGet (o : Obj) (k : Key) : Value :=
  match findProp o.own k with
  | some (.dataDesc v _) => v
  | some (.accessor (some g) _) => callGetter g o
  | some (.accessor none _) => .undefined
  | none =>
    match findProtoProp o.protos k with
    | some (.dataDesc v _) => v
    | some (.accessor (some g) _) => callGetter g o
    | some (.accessor none _) => .undefined
    | none => .undefined

/-- Ordinary property write `inst[prop] = value` in strict mode: `none`
models a thrown `TypeError` (non-writable data property or setter-less
accessor), `some` the updated instance. A write that reaches neither an own
nor an inherited blocking descriptor creates a writable own data
property. -/
def ordinarySet (o : Obj) (k : Key) (v : Value) : Option Obj :=
  match findProp o.own k with
  | some (.dataDesc _ true) => some ⟨updateOwnValue o.own k v, o.protos⟩
  | some (.dataDesc _ false) => none
  | some (.accessor _ (some s)) => some (callSetter s o v)
  | some (.accessor _ none) => none
  | none =>
    match findProtoProp o.protos k with
    | some (.dataDesc _ true) => some ⟨o.own ++ [(k, .dataDesc v true)], o.protos⟩
    | some (.dataDesc _ false) => none
    | some (.accessor _ (some s)) => some (callSetter s o v)
    | some (.accessor _ none) => none
    | none => some ⟨o.own ++ [(k, .dataDesc v true)], o.protos⟩

/-- The `get` trap of the facade returned by `createListComposedInstance`. -/
def proxyGet (plan : Plan) (instances : List Obj) (k : Key) : Value :=
  match mapGet plan k with
  | none => .undefined
  | some e =>
    let inst := instances.getD e.index emptyObj
    match getterOf e.desc with
    | some g => callGetter g inst
    | none =>
      if descValue e.desc ≠ Value.undefined then
        if e.fromProto && isFnValue (descValue e.desc) then
          bindValue (descValue e.desc) e.index
        else ordinaryGet inst k
      else .undefined

/-- The `set` trap of the facade: setter and writable-data branches on the
plan entry, then the fall-through assignment onto the last instance, and
`false` only for an empty instance list. `none` models a thrown
`TypeError` from the inner strict-mode assignment. -/
def proxySet (plan : Plan) (instances : List Obj) (k : Key) (v : Value) :
    Option (List Obj × Bool) :=
  let fallthru : Option (List Obj × Bool) :=
    if instances.length > 0 then
      match ordinarySet (instances.getD (instances.length - 1) emptyObj) k v with
      | some o2 => some (instances.set (instances.length - 1) o2, true)
      | none => none
    else some (instances, false)
  match mapGet plan k with
  | some e =>
    let inst := instances.getD e.index emptyObj
    match setterOf e.desc with
    | some s => some (instances.set e.index (callSetter s inst v), true)
    | none =>
      if descWritable e.desc then
        match ordinarySet inst k v with
        | some o2 => some (instances.set e.index o2, true)
        | none => none
      else fallthru
  | none => fallthru

/-- The `has` trap of the facade: `propertyMap.has(prop)`. -/
def proxyHas (plan : Plan) (k : Key) : Bool := mapHas plan k

/-- The `ownKeys` trap of the facade: `Array.from(propertyMap.keys())`. -/
def proxyOwnKeys (plan : Plan) : List Key := mapKeys plan

/-- The `getOwnPropertyDescriptor` trap of the facade. -/
def proxyGetOwnDescriptor (plan : Plan) (k : Key) : Option Desc :=
  (mapGet plan k).map (·.desc)

/-- Error raised by `design()` for a malformed child argument
(`throw new Error('Invalid child argument to design()')`). -/
inductive DesignError where
  | invalidArgument
deriving DecidableEq, Repr

/-- A component design whose `create` additionally records the trace of
construction side effects performed by the setup functions it runs
(`makeCreate(setup)` simply invokes `setup(deps)`). -/
structure TracedDesign (Deps Inst : Type) where
  create : Deps → List String × Inst

/-- The second argument of `design(parent, child)` after the runtime
dispatch: a setup function (`typeof child === 'function'`), a component
design (`isComponentDesign(child)`), or any other value. -/
inductive ChildArg (Deps Parent Inst : Type) where
  | setupFn (f : Parent → List String × Inst)
  | childDesign (d : TracedDesign Deps Inst)
  | invalid

/-- The one-argument form `design(setup)`. -/
def design1 {Deps Inst : Type} (setup : Deps → List String × Inst) :
    TracedDesign Deps Inst := ⟨setup⟩

/-- The two-argument form `design(parent, child)`: a setup-function child
runs `parentDesign.create(deps)` and feeds the parent instance to the
child; a design child becomes `deps => childDesign.create(deps)`; any
other child raises `InvalidArgument` inside the `design` call itself. -/
def design2 {Deps Parent Inst : Type} (parentDesign : TracedDesign Deps Parent)
    (child : ChildArg Deps Parent Inst) :
    Except DesignError (TracedDesign Deps Inst) :=
  match child with
  | .setupFn f => .ok ⟨fun deps =>
      let tp := parentDesign.create deps
      let tc := f tp.2
      (tp.1 ++ tc.1, tc.2)⟩
  | .childDesign d => .ok ⟨fun deps => d.create deps⟩
  | .invalid => .error .invalidArgument

/-- Dependency objects as read by setup functions: a key to optional-value
mapping (spread and member access only consult this mapping). -/
abbrev DepsMap := Key → Option Value

/-- The spread `{ ...first, ...second }`: keys of `second` win. -/
def spreadTwo (first second : DepsMap) : DepsMap :=
  fun k =>
    match second k with
    | some v => some v
    | none => first k

/-- The dependency object `{ k: v }`. -/
def singletonDeps (k : Key) (v : Value) : DepsMap :=
  fun k0 => if k0 = k then some v else none

/-- The dependency object `{ ...deps, k: v }`. -/
def insertDep (deps : DepsMap) (k : Key) (v : Value) : DepsMap :=
  fun k0 => if k0 = k then some v else deps k0

/-- A design over dependency objects, as built by `design(setup)` with
`makeCreate` (create just applies the setup). -/
structure PlainDesign (Inst : Type) where
  create : DepsMap → Inst

/-- The one-argument `design(setup)` at dependency-object level. -/
def designP {Inst : Type} (setup : DepsMap → Inst) : PlainDesign Inst := ⟨setup⟩

/-- The `.with(values)` transform (`makeWithTransform`): a new design whose
setup merges `{ ...values, ...deps }` and calls the original setup. -/
def makeWithTransform {Inst : Type} (setupFn : DepsMap → Inst)
    (values : DepsMap) : PlainDesign Inst :=
  designP (fun deps => setupFn (spreadTwo values deps))

/-- The `.extend()` transform (`makeExtendTransform`): runtime identity on
the setup. -/
def makeExtendTransform {Inst : Type} (setupFn : DepsMap → Inst) :
    PlainDesign Inst :=
  designP (fun deps => setupFn deps)

/-- A component design at the object level whose creation threads a global
instantiation counter, the observable world state used to count setup
runs. -/
structure EffDesign where
  create : Value → Nat → Nat × Obj

/-- `items.map(item => item.create(deps))`: instantiate every design in
order against the same dependency value, threading the counter. -/
def createInstances : List EffDesign → Value → Nat → Nat × List Obj
  | [], _, c => (c, [])
  | d :: rest, deps, c =>
    let r := d.create deps c
    let rs := createInstances rest deps r.1
    (rs.1, r.2 :: rs.2)

/-- The per-list plan cache (`listComposedPropertyMapCache`, a `WeakMap`
keyed by the identity of the design list, here a numeric identity). -/
abbrev PlanCache := List (Nat × Plan)

/-- `WeakMap.prototype.get` on the plan cache. -/
def lookupCache : PlanCache → Nat → Option Plan
  | [], _ => none
  | (id, p) :: rest, i => if id = i then some p else lookupCache rest i

/-- `WeakMap.prototype.set` on the plan cache. -/
def storeCache : PlanCache → Nat → Plan → PlanCache
  | [], id, p => [(id, p)]
  | (id', p') :: rest, id, p =>
    if id' = id then (id, p) :: rest else (id', p') :: storeCache rest id p

/-- The process-wide state threaded through `create` calls: the
instantiation counter and the plan cache. -/
structure CLState where
  counter : Nat
  cache : PlanCache
deriving DecidableEq, Repr

/-- The facade returned by `createListComposedInstance`: a proxy closing
over the composition plan and the created instance list; its traps are
`proxyGet`, `proxySet`, `proxyHas` and `proxyOwnKeys`. -/
structure Facade where
  plan : Plan
  instances : List Obj
deriving DecidableEq, Repr

/-- `createListComposedInstance(items, deps)`: look the plan up by the
identity of the list, instantiate every design, and build and cache the
plan only when the lookup missed. -/
def createListComposedInstance (listId : Nat) (items : List EffDesign)
    (deps : Value) (st : CLState) : CLState × Facade :=
  let cached := lookupCache st.cache listId
  let created := createInstances items deps st.counter
  match cached with
  | some plan => (⟨created.1, st.cache⟩, ⟨plan, created.2⟩)
  | none =>
    let plan := buildPropertyMap created.2
    (⟨created.1, storeCache st.cache listId plan⟩, ⟨plan, created.2⟩)

/-- `createMapComposedInstance(items, deps)`: a plain object holding, under
each key of the map in order, the instance created by that design against
the same dependency value. -/
def createMapComposedInstance : List (Key × EffDesign) → Value → Nat →
    Nat × List (Key × Obj)
  | [], _, c => (c, [])
  | (k, d) :: rest, deps, c =>
    let r := d.create deps c
    let rs := createMapComposedInstance rest deps r.1
    (rs.1, (k, r.2) :: rs.2)

/-- The argument of `compose` after the runtime dispatch inside its setup:
an array of designs (`Array.isArray`), a plain object of designs
(`isPlainObject`), or any other value. -/
inductive ComposeArg where
  | listArg (listId : Nat) (items : List EffDesign)
  | mapArg (entries : List (Key × EffDesign))
  | invalidArg

/-- Error raised by the setup of `compose` for a malformed argument
(`throw new Error('Invalid designs argument to compose()')`). -/
inductive ComposeError where
  | invalidArgument
deriving DecidableEq, Repr

/-- An instance produced by a composed design: the merged proxy facade in
list mode or the keyed plain object in map mode. -/
inductive ComposedInstance where
  | merged (f : Facade)
  | nested (m : List (Key × Obj))
deriving DecidableEq, Repr

/-- The setup closure built inside `compose(designs)`: the argument
dispatch and the `throw` for a malformed argument happen here, at `create`
time. -/
def composeSetup (arg : ComposeArg) (deps : Value) (st : CLState) :
    Except ComposeError (CLState × ComposedInstance) :=
  match arg with
  | .listArg id items =>
    let r := createListComposedInstance id items deps st
    .ok (r.1, .merged r.2)
  | .mapArg entries =>
    let r := createMapComposedInstance entries deps st.counter
    .ok (⟨r.1, st.cache⟩, .nested r.2)
  | .invalidArg => .error .invalidArgument

/-- A design returned by `compose`. -/
structure ComposedDesign where
  create : Value → CLState → Except ComposeError (CLState × ComposedInstance)

/-- `compose(designs)`: the call itself only wraps the setup closure into a
design record and performs no validation, so it succeeds for every
argument; any `InvalidArgument` surfaces from `create`. -/
def compose (arg : ComposeArg) : Except ComposeError ComposedDesign :=
  .ok ⟨fun deps st => composeSetup arg deps st⟩

/-- Run `create` on the design produced by a `compose` call, propagating a
construction-time error. -/
def createFromComposed (r : Except ComposeError ComposedDesign)
    (deps : Value) (st : CLState) :
    Except ComposeError (CLState × ComposedInstance) :=
  match r with
  | .ok d => d.create deps st
  | .error e => .error e

/-- Index of the last element of a list satisfying a predicate. -/
def lastIdxWhere {α : Type} (p : α → Bool) : List α → Option Nat
  | [] => none
  | a :: rest =>
    match lastIdxWhere p rest with
    | some j => some (j + 1)
    | none => if p a then some 0 else none

/-- Index of the first element of a list satisfying a predicate. -/
def firstIdxWhere {α : Type} (p : α → Bool) : List α → Option Nat
  | [] => none
  | a :: rest => if p a then some 0 else (firstIdxWhere p rest).map (· + 1)

/-- The instance index the plan construction actually selects for a key:
the last instance defining it as an own property when one exists, otherwise
the first instance defining it on its prototype chain. -/
def specIndex (instances : List Obj) (k : Key) : Option Nat :=
  match lastIdxWhere (fun o => ownDefines o k) instances with
  | some j => some j
  | none => firstIdxWhere (fun o => protoDefines o k) instances

/-- The facade read behaviour described by the specification, amended at
the captured-undefined corner: a getter is invoked bound to the owning
instance; a data property whose captured value is not `undefined` is
re-read live from the owning instance (after binding an inherited function
value to the owner); a data property captured as `undefined` reads as
`undefined` regardless of the owner's current value. -/
def specFacadeRead (e : Entry) (instances : List Obj) (k : Key) : Value :=
  let inst := instances.getD e.index emptyObj
  match e.desc with
  | .accessor (some g) _ => callGetter g inst
  | .accessor none _ => .undefined
  | .dataDesc v _ =>
    if v = Value.undefined then .undefined
    else if e.fromProto && isFnValue v then bindValue v e.index
    else ordinaryGet inst k

/-- An instance owning `k` as a writable own data property (for the plan
precedence counterexample). -/
def ownKInst : Obj := ⟨[("k", Desc.dataDesc (Value.int 1) true)], []⟩

/-- An instance defining `k` only on its prototype (for the plan precedence
counterexample). -/
def protoKInst : Obj := ⟨[], [[("k", Desc.dataDesc (Value.int 2) true)]]⟩

/-- A parent design logging a construction side effect. -/
def loggedParentDesign : TracedDesign Nat Nat := ⟨fun _ => (["parent"], 0)⟩

/-- A child design logging a construction side effect. -/
def loggedChildDesign : TracedDesign Nat Nat := ⟨fun _ => (["child"], 1)⟩

/-- Run `create` on the design produced by a `design(parent, child)` call,
with a sentinel result when construction failed. -/
def createViaDesign2 (r : Except DesignError (TracedDesign Nat Nat))
    (d : Nat) : List String × Nat :=
  match r with
  | .ok dd => dd.create d
  | .error _ => ([], 0)

/-- A setup function reading the dependency key `a`. -/
def pickA : DepsMap → Option Value := fun d => d "a"

/-- An effect-free design producing the empty instance. -/
def skipEffDesign : EffDesign := ⟨fun _ c => (c, emptyObj)⟩

/-- An instance whose own data property `x` is captured as `undefined` at
plan-construction time. -/
def undefValInst : Obj := ⟨[("x", Desc.dataDesc Value.undefined true)], []⟩

/-- The plan captured from `undefValInst`. -/
def undefValPlan : Plan := buildPropertyMap [undefValInst]

/-- The instance `undefValInst` after the external write `inst.x = 5`. -/
def mutatedUndefValInst : Obj := ⟨[("x", Desc.dataDesc (Value.int 5) true)], []⟩

/-- An instance owning `k` as a non-writable data property without a
setter. -/
def roInst : Obj := ⟨[("k", Desc.dataDesc (Value.int 1) false)], []⟩

/-- A design whose instances expose a getter closing over per-creation
state (the value of the global instantiation counter at creation time). -/
def counterGetterDesign : EffDesign :=
  ⟨fun _deps c =>
    (c + 1, ⟨[("id", Desc.accessor (some (GetterBody.constG (Value.int c))) none)], []⟩)⟩

/-- First `create` of the composed singleton list of
`counterGetterDesign`. -/
def cexRun1 : CLState × Facade :=
  createListComposedInstance 0 [counterGetterDesign] Value.undefined ⟨0, []⟩

/-- Second `create` of the same list, from the state the first one left. -/
def cexRun2 : CLState × Facade :=
  createListComposedInstance 0 [counterGetterDesign] Value.undefined cexRun1.1

theorem mapGet_mapSet_self (m : Plan) (k : Key) (e : Entry) :
    mapGet (mapSet m k e) k = some e := by
  induction m with
  | nil => simp [mapSet, mapGet]
  | cons p rest ih =>
    obtain ⟨k', e'⟩ := p
    by_cases h : k' = k
    · simp [mapSet, h, mapGet]
    · simp [mapSet, h, mapGet, ih]

theorem mapGet_mapSet_ne (m : Plan) (k k2 : Key) (e : Entry) (h : k2 ≠ k) :
    mapGet (mapSet m k e) k2 = mapGet m k2 := by
  have h' : k ≠ k2 := Ne.symm h
  induction m with
  | nil => simp [mapSet, mapGet, h']
  | cons p rest ih =>
    obtain ⟨k', e'⟩ := p
    by_cases hk : k' = k
    · rw [hk]
      simp [mapSet, mapGet, h']
    · simp [mapSet, hk, mapGet, ih]

theorem addOwnKeys_not_have (i : Nat) (own : PropList) (plan : Plan) (k : Key)
    (h : propsHave own k = false) :
    mapGet (addOwnKeys i own plan) k = mapGet plan k := by
  induction own generalizing plan with
  | nil => simp [addOwnKeys]
  | cons p rest ih =>
    obtain ⟨k', d⟩ := p
    by_cases h' : k' = k
    · simp [propsHave, h'] at h
    · simp only [propsHave, h', if_false] at h
      simp only [addOwnKeys]
      rw [ih _ h, mapGet_mapSet_ne _ _ _ _ (Ne.symm h')]

theorem addOwnKeys_have (i : Nat) (own : PropList) (plan : Plan) (k : Key)
    (h : propsHave own k = true) :
    ∃ d, mapGet (addOwnKeys i own plan) k = some ⟨i, d, false⟩ := by
  induction own generalizing plan with
  | nil => simp [propsHave] at h
  | cons p rest ih =>
    obtain ⟨k', d⟩ := p
    by_cases hr : propsHave rest k = true
    · simpa only [addOwnKeys] using ih (mapSet plan k' ⟨i, d, false⟩) hr
    · have hk : k' = k := by
        by_contra h'
        simp [propsHave, h', hr] at h
      refine ⟨d, ?_⟩
      simp only [addOwnKeys]
      rw [addOwnKeys_not_have i rest _ k (by simpa using hr), hk, mapGet_mapSet_self]

theorem addProtoLevel_preserves_some (i : Nat) (lvl : PropList) (plan : Plan)
    (k : Key) (e : Entry) (h : mapGet plan k = some e) :
    mapGet (addProtoLevel i lvl plan) k = some e := by
  induction lvl generalizing plan with
  | nil => simpa [addProtoLevel] using h
  | cons p rest ih =>
    obtain ⟨k0, d⟩ := p
    simp only [addProtoLevel]
    by_cases hk : k0 = k
    · have : mapHas plan k0 = true := by rw [hk] ; simp [mapHas, h]
      simpa [this] using ih _ h
    · by_cases hh : mapHas plan k0
      · simpa [hh] using ih _ h
      · simp only [hh, if_false, Bool.false_eq_true]
        exact ih _ (by rw [mapGet_mapSet_ne _ _ _ _ (Ne.symm hk)] ; exact h)

theorem addProtoLevel_not_have (i : Nat) (lvl : PropList) (plan : Plan)
    (k : Key) (h : propsHave lvl k = false) :
    mapGet (addProtoLevel i lvl plan) k = mapGet plan k := by
  induction lvl generalizing plan with
  | nil => simp [addProtoLevel]
  | cons p rest ih =>
    obtain ⟨k0, d⟩ := p
    by_cases hk : k0 = k
    · simp [propsHave, hk] at h
    · simp only [propsHave, hk, if_false] at h
      simp only [addProtoLevel]
      by_cases hh : mapHas plan k0
      · simpa [hh] using ih _ h
      · simp only [hh, if_false, Bool.false_eq_true]
        rw [ih _ h, mapGet_mapSet_ne _ _ _ _ (Ne.symm hk)]

theorem addProtoLevel_have_none (i : Nat) (lvl : PropList) (plan : Plan)
    (k : Key) (hn : mapGet plan k = none) (h : propsHave lvl k = true) :
    ∃ d, mapGet (addProtoLevel i lvl plan) k = some ⟨i, d, true⟩ := by
  induction lvl generalizing plan with
  | nil => simp [propsHave] at h
  | cons p rest ih =>
    obtain ⟨k0, d⟩ := p
    simp only [addProtoLevel]
    by_cases hk : k0 = k
    · have hhas : mapHas plan k0 = false := by rw [hk] ; simp [mapHas, hn]
      refine ⟨d, ?_⟩
      simp only [hhas, Bool.false_eq_true, if_false]
      have hg : mapGet (mapSet plan k0 ⟨i, d, true⟩) k = some ⟨i, d, true⟩ := by
        rw [← hk]
        exact mapGet_mapSet_self _ _ _
      exact addProtoLevel_preserves_some i rest _ k _ hg
    · simp only [propsHave, hk, if_false] at h
      by_cases hh : mapHas plan k0
      · simpa [hh] using ih _ hn h
      · simp only [hh, Bool.false_eq_true, if_false]
        exact ih _ (by rw [mapGet_mapSet_ne _ _ _ _ (Ne.symm hk)] ; exact hn) h

theorem addProtoKeys_preserves_some (i : Nat) (levels : List PropList)
    (plan : Plan) (k : Key) (e : Entry) (h : mapGet plan k = some e) :
    mapGet (addProtoKeys i levels plan) k = some e := by
  induction levels generalizing plan with
  | nil => simpa [addProtoKeys] using h
  | cons lvl rest ih =>
    simp only [addProtoKeys]
    exact ih _ (addProtoLevel_preserves_some i lvl plan k e h)

theorem addProtoKeys_not_have (i : Nat) (levels : List PropList) (plan : Plan)
    (k : Key) (h : protoHave levels k = false) :
    mapGet (addProtoKeys i levels plan) k = mapGet plan k := by
  induction levels generalizing plan with
  | nil => simp [addProtoKeys]
  | cons lvl rest ih =>
    simp only [protoHave, List.any_cons, Bool.or_eq_false_iff] at h
    simp only [addProtoKeys]
    rw [ih _ (by simpa [protoHave] using h.2), addProtoLevel_not_have i lvl plan k h.1]

theorem addProtoKeys_have_none (i : Nat) (levels : List PropList) (plan : Plan)
    (k : Key) (hn : mapGet plan k = none) (h : protoHave levels k = true) :
    ∃ d, mapGet (addProtoKeys i levels plan) k = some ⟨i, d, true⟩ := by
  induction levels generalizing plan with
  | nil => simp [protoHave] at h
  | cons lvl rest ih =>
    simp only [addProtoKeys]
    by_cases h1 : propsHave lvl k = true
    · obtain ⟨d, hd⟩ := addProtoLevel_have_none i lvl plan k hn h1
      exact ⟨d, addProtoKeys_preserves_some i rest _ k _ hd⟩
    · have h2 : protoHave rest k = true := by
        simp only [protoHave, List.any_cons, h1] at h ⊢
        simpa [protoHave] using h
      exact ih _ (by rw [addProtoLevel_not_have i lvl plan k (by simpa using h1)] ; exact hn) h2

theorem processInst_own (i : Nat) (o : Obj) (plan : Plan) (k : Key)
    (h : ownDefines o k = true) :
    ∃ d, mapGet (processInst i o plan) k = some ⟨i, d, false⟩ := by
  obtain ⟨d, hd⟩ := addOwnKeys_have i o.own plan k h
  exact ⟨d, addProtoKeys_preserves_some i o.protos _ k _ hd⟩

theorem processInst_not_own_some (i : Nat) (o : Obj) (plan : Plan) (k : Key)
    (e : Entry) (h : ownDefines o k = false) (hp : mapGet plan k = some e) :
    mapGet (processInst i o plan) k = some e := by
  unfold processInst
  exact addProtoKeys_preserves_some i o.protos _ k e
    (by rw [addOwnKeys_not_have i o.own plan k h] ; exact hp)

theorem processInst_not_own_proto (i : Nat) (o : Obj) (plan : Plan) (k : Key)
    (h : ownDefines o k = false) (hp : mapGet plan k = none)
    (hpr : protoDefines o k = true) :
    ∃ d, mapGet (processInst i o plan) k = some ⟨i, d, true⟩ := by
  unfold processInst
  exact addProtoKeys_have_none i o.protos _ k
    (by rw [addOwnKeys_not_have i o.own plan k h] ; exact hp) hpr

theorem processInst_absent (i : Nat) (o : Obj) (plan : Plan) (k : Key)
    (h : ownDefines o k = false) (hp : mapGet plan k = none)
    (hpr : protoDefines o k = false) :
    mapGet (processInst i o plan) k = none := by
  unfold processInst
  rw [addProtoKeys_not_have i o.protos _ k hpr, addOwnKeys_not_have i o.own plan k h]
  exact hp

theorem buildAux_get_index (objs : List Obj) (k : Key) :
    ∀ (i : Nat) (plan : Plan),
    (mapGet (buildAux i objs plan) k).map Entry.index =
      (match lastIdxWhere (fun o => ownDefines o k) objs with
      | some j => some (i + j)
      | none =>
        match mapGet plan k with
        | some e => some e.index
        | none =>
          (firstIdxWhere (fun o => protoDefines o k) objs).map (fun j => i + j)) := by
  induction objs with
  | nil =>
    intro i plan
    simp only [buildAux, lastIdxWhere, firstIdxWhere]
    cases h : mapGet plan k <;> simp [h]
  | cons o rest ih =>
    intro i plan
    simp only [buildAux]
    rw [ih (i + 1) (processInst i o plan)]
    by_cases hown : ownDefines o k = true
    · obtain ⟨d, hp⟩ := processInst_own i o plan k hown
      cases hl : lastIdxWhere (fun o => ownDefines o k) rest with
      | some j =>
        simp only [lastIdxWhere, hl, Option.some.injEq]
        omega
      | none =>
        simp only [lastIdxWhere, hl, hown, if_true, hp, Option.some.injEq]
        omega
    · have hownf : ownDefines o k = false := by simpa using hown
      cases hl : lastIdxWhere (fun o => ownDefines o k) rest with
      | some j =>
        simp only [lastIdxWhere, hl, Option.some.injEq]
        omega
      | none =>
        simp only [lastIdxWhere, hl, hownf, Bool.false_eq_true, if_false]
        cases hplan : mapGet plan k with
        | some e =>
          rw [processInst_not_own_some i o plan k e hownf hplan]
        | none =>
          by_cases hpr : protoDefines o k = true
          · obtain ⟨d, hp⟩ := processInst_not_own_proto i o plan k hownf hplan hpr
            simp [hp, firstIdxWhere, hpr]
          · have hprf : protoDefines o k = false := by simpa using hpr
            rw [processInst_absent i o plan k hownf hplan hprf]
            simp only [firstIdxWhere, hprf, Bool.false_eq_true, if_false,
              Option.map_map]
            cases hf : firstIdxWhere (fun o => protoDefines o k) rest with
            | none => rfl
            | some j =>
              simp only [Option.map_some', Function.comp_apply,
                Option.some.injEq]
              omega

/-- C1 (amended): for every list of instances and every key, the
composition plan assigns the key to the last instance that defines it as an
own property; when no instance defines it as an own property, to the first
instance that defines it via its prototype chain. It does not always assign
to the last instance defining the key directly or via its prototype
chain. -/
theorem claim_C1_plan_precedence (instances : List Obj) (k : Key) :
    (mapGet (buildPropertyMap instances) k).map Entry.index =
      specIndex instances k := by
  unfold buildPropertyMap specIndex
  rw [buildAux_get_index instances k 0 []]
  cases hl : lastIdxWhere (fun o => ownDefines o k) instances with
  | some j => simp
  | none =>
    simp only [mapGet]
    cases hf : firstIdxWhere (fun o => protoDefines o k) instances <;> simp

/-- C1 counterexample: the key `k` is defined by both instances (the first
as an own property, the second via its prototype chain), yet the plan
assigns it to index 0, not to the last defining instance at index 1. -/
theorem claim_C1_counterexample :
    definesKey ownKInst "k" = true ∧
    definesKey protoKInst "k" = true ∧
    (mapGet (buildPropertyMap [ownKInst, protoKInst]) "k").map Entry.index
        = some 0 ∧
    (some 0 : Option Nat) ≠ some 1 := by
  exact ⟨by decide, by decide, by decide, by decide⟩

/-- C2 (amended): when the child of `design(parent, child)` is itself a
design, `create(deps)` returns exactly `child.create(deps)`; the parent
design's `create` is never invoked, so its construction side effects do not
run. -/
theorem claim_C2_child_design_discards_parent {Deps Parent Inst : Type}
    (parentDesign : TracedDesign Deps Parent) (childD : TracedDesign Deps Inst) :
    ∃ made, design2 parentDesign (ChildArg.childDesign childD) = .ok made
      ∧ ∀ deps, made.create deps = childD.create deps :=
  ⟨⟨fun deps => childD.create deps⟩, rfl, fun _ => rfl⟩

/-- C2 counterexample: with a parent whose construction logs `parent`, the
design built from `design(parent, childDesign)` creates the child instance
with a trace containing only the child's side effect; the parent's side
effect does not run. -/
theorem claim_C2_counterexample :
    createViaDesign2
        (design2 loggedParentDesign (ChildArg.childDesign loggedChildDesign)) 0
      = (["child"], 1) ∧
    ¬ "parent" ∈ (createViaDesign2
        (design2 loggedParentDesign (ChildArg.childDesign loggedChildDesign)) 0).1 := by
  exact ⟨rfl, by decide⟩

/-- C3 (amended): `compose` itself performs no validation and succeeds for
an argument that is neither a list nor a map of designs; the
`InvalidArgument` condition is raised by the first `create` call on the
returned design. -/
theorem claim_C3_invalid_compose_errors_at_create (deps : Value) (st : CLState) :
    (compose ComposeArg.invalidArg).isOk = true ∧
    createFromComposed (compose ComposeArg.invalidArg) deps st
      = .error ComposeError.invalidArgument :=
  ⟨rfl, rfl⟩

/-- C3 counterexample: at the concrete malformed argument, the `compose`
call itself returns a design without raising, and the error surfaces only
from `create`. -/
theorem claim_C3_counterexample :
    (compose ComposeArg.invalidArg).isOk = true ∧
    createFromComposed (compose ComposeArg.invalidArg) Value.undefined ⟨0, []⟩
      = .error ComposeError.invalidArgument :=
  ⟨rfl, rfl⟩

/-- C4 (amended): a facade read of a key in the plan behaves as the
specification describes, except at the captured-undefined corner: a getter
is invoked bound to the owning instance at each read; a data property is
re-read live from the owning instance and an inherited function value is
bound to the owner, provided the value captured at plan-construction time
is not `undefined`; a data property captured as `undefined` always reads
as `undefined`. -/
theorem claim_C4_facade_read_branches (plan : Plan) (instances : List Obj)
    (k : Key) (e : Entry) (hget : mapGet plan k = some e) :
    proxyGet plan instances k = specFacadeRead e instances k := by
  obtain ⟨i, d, b⟩ := e
  cases d with
  | accessor g s =>
    cases g with
    | some g0 => simp [proxyGet, hget, specFacadeRead, getterOf]
    | none => simp [proxyGet, hget, specFacadeRead, getterOf, descValue]
  | dataDesc v w =>
    by_cases hv : v = Value.undefined
    · simp [proxyGet, hget, specFacadeRead, getterOf, descValue, hv]
    · simp [proxyGet, hget, specFacadeRead, getterOf, descValue, hv]

/-- C4 witness: the branch theorem applied at a concrete plan entry. -/
theorem claim_C4_witness :
    mapGet undefValPlan "x" = some ⟨0, Desc.dataDesc Value.undefined true, false⟩ ∧
    proxyGet undefValPlan [undefValInst] "x"
      = specFacadeRead ⟨0, Desc.dataDesc Value.undefined true, false⟩
          [undefValInst] "x" :=
  ⟨by decide,
    claim_C4_facade_read_branches undefValPlan [undefValInst] "x" _ (by decide)⟩

/-- C4 counterexample: a writable own data property captured as `undefined`
and then externally mutated to 5 is not observed through the facade: the
facade reads `undefined` while the owning instance's current value is 5,
so the claimed live re-read fails at this input. -/
theorem claim_C4_counterexample :
    ordinarySet undefValInst "x" (Value.int 5) = some mutatedUndefValInst ∧
    proxyGet undefValPlan [mutatedUndefValInst] "x" = Value.undefined ∧
    ordinaryGet mutatedUndefValInst "x" = Value.int 5 ∧
    Value.undefined ≠ Value.int 5 := by
  exact ⟨by decide, by decide, by decide, by decide⟩

/-- C5 (amended): when the owning instance's property is non-writable and
has no setter, the facade does not report failure: the assignment falls
through to the generic path, performing an ordinary assignment of the key
onto the last instance in the list and reporting success when that
assignment succeeds (failure is reported only for an empty instance
list, and a failing strict-mode assignment throws). -/
theorem claim_C5_nonwritable_falls_through (plan : Plan) (instances : List Obj)
    (k : Key) (v : Value) (e : Entry) (o2 : Obj)
    (hget : mapGet plan k = some e)
    (hset : setterOf e.desc = none)
    (hw : descWritable e.desc = false)
    (hne : instances ≠ [])
    (ho : ordinarySet (instances.getD (instances.length - 1) emptyObj) k v
        = some o2) :
    proxySet plan instances k v
      = some (instances.set (instances.length - 1) o2, true) := by
  have hlen : instances.length > 0 := by
    cases instances with
    | nil => exact absurd rfl hne
    | cons a l => simp
  have hidx : instances.length - 1 < instances.length := by omega
  have ho2 : ordinarySet instances[instances.length - 1] k v = some o2 := by
    rw [← List.getD_eq_getElem instances emptyObj hidx]
    exact ho
  simp [proxySet, hget, hset, hw, hlen, ho2]

/-- C5 witness: the fall-through theorem applied at a concrete two-instance
list whose first instance owns the key as non-writable data. -/
theorem claim_C5_witness :
    mapGet (buildPropertyMap [roInst, emptyObj]) "k"
        = some ⟨0, Desc.dataDesc (Value.int 1) false, false⟩ ∧
    setterOf (Desc.dataDesc (Value.int 1) false) = none ∧
    descWritable (Desc.dataDesc (Value.int 1) false) = false ∧
    ([roInst, emptyObj] : List Obj) ≠ [] ∧
    ordinarySet (([roInst, emptyObj] : List Obj).getD
        (([roInst, emptyObj] : List Obj).length - 1) emptyObj) "k" (Value.int 9)
      = some ⟨[("k", Desc.dataDesc (Value.int 9) true)], []⟩ ∧
    proxySet (buildPropertyMap [roInst, emptyObj]) [roInst, emptyObj] "k"
        (Value.int 9)
      = some (([roInst, emptyObj] : List Obj).set
          (([roInst, emptyObj] : List Obj).length - 1)
          ⟨[("k", Desc.dataDesc (Value.int 9) true)], []⟩, true) :=
  ⟨by decide, rfl, rfl, by decide, by decide,
    claim_C5_nonwritable_falls_through (buildPropertyMap [roInst, emptyObj])
      [roInst, emptyObj] "k" (Value.int 9)
      ⟨0, Desc.dataDesc (Value.int 1) false, false⟩
      ⟨[("k", Desc.dataDesc (Value.int 9) true)], []⟩
      (by decide) (by decide) (by decide) (by decide) (by decide)⟩

/-- C5 counterexample: with a non-writable, setter-less owner at index 0,
the facade assignment is not a reported no-op failure: it returns success
and mutates the last instance. -/
theorem claim_C5_counterexample :
    mapGet (buildPropertyMap [roInst, emptyObj]) "k"
        = some ⟨0, Desc.dataDesc (Value.int 1) false, false⟩ ∧
    proxySet (buildPropertyMap [roInst, emptyObj]) [roInst, emptyObj] "k"
        (Value.int 9)
      = some ([roInst, ⟨[("k", Desc.dataDesc (Value.int 9) true)], []⟩], true) ∧
    (⟨[("k", Desc.dataDesc (Value.int 9) true)], []⟩ : Obj) ≠ emptyObj := by
  exact ⟨by decide, by decide, by decide⟩

/-- C7 (confirmed): pre-filling `k` and creating with the remaining
dependencies equals creating with the merged dependency object, and the
caller-supplied value wins a collision because the pre-filled defaults are
spread first and the caller-supplied subset second. -/
theorem claim_C7_with_prefill {Inst : Type} (setupFn : DepsMap → Inst)
    (k : Key) (v : Value) (rest : DepsMap) (values deps : DepsMap)
    (k0 : Key) (w : Value)
    (h : rest k = none) (hw : deps k0 = some w) :
    (makeWithTransform setupFn (singletonDeps k v)).create rest
        = (designP setupFn).create (insertDep rest k v)
    ∧ (makeWithTransform setupFn values).create deps
        = setupFn (spreadTwo values deps)
    ∧ spreadTwo values deps k0 = some w := by
  refine ⟨?_, rfl, ?_⟩
  · show setupFn (spreadTwo (singletonDeps k v) rest)
        = setupFn (insertDep rest k v)
    congr 1
    funext k1
    simp only [spreadTwo, singletonDeps, insertDep]
    by_cases hk : k1 = k
    · rw [hk, h]
    · cases hr : rest k1 <;> simp [hk, hr]
  · simp [spreadTwo, hw]

/-- C7 witness: the pre-fill theorem applied at a concrete setup and
concrete dependency objects. -/
theorem claim_C7_witness :
    singletonDeps "a" (Value.int 1) "b" = none ∧
    singletonDeps "a" (Value.int 1) "a" = some (Value.int 1) ∧
    ((makeWithTransform pickA (singletonDeps "b" (Value.int 2))).create
          (singletonDeps "a" (Value.int 1))
        = (designP pickA).create
            (insertDep (singletonDeps "a" (Value.int 1)) "b" (Value.int 2))
      ∧ (makeWithTransform pickA (singletonDeps "a" (Value.int 7))).create
            (singletonDeps "a" (Value.int 1))
          = pickA (spreadTwo (singletonDeps "a" (Value.int 7))
              (singletonDeps "a" (Value.int 1)))
      ∧ spreadTwo (singletonDeps "a" (Value.int 7))
            (singletonDeps "a" (Value.int 1)) "a" = some (Value.int 1)) :=
  ⟨by decide, by decide,
    claim_C7_with_prefill pickA "b" (Value.int 2) (singletonDeps "a" (Value.int 1))
      (singletonDeps "a" (Value.int 7)) (singletonDeps "a" (Value.int 1))
      "a" (Value.int 1) (by decide) (by decide)⟩

/-- Keys of a map-composed instance are the keys of the design map, in
order. -/
theorem mapCompose_keys (entries : List (Key × EffDesign)) (deps : Value)
    (c : Nat) :
    ((createMapComposedInstance entries deps c).2).map Prod.fst
      = entries.map Prod.fst := by
  induction entries generalizing c with
  | nil => rfl
  | cons p rest ih =>
    obtain ⟨k, d⟩ := p
    simp [createMapComposedInstance, ih]

/-- C8 (confirmed): map-mode composition returns a plain object whose own
keys are exactly the map's keys, each holding verbatim the instance created
by the corresponding design against the same dependency value (at the
counter state reached after the preceding designs). -/
theorem claim_C8_map_mode (entries : List (Key × EffDesign)) (deps : Value)
    (c : Nat) (i : Nat) (h : i < entries.length) :
    ((createMapComposedInstance entries deps c).2).map Prod.fst
        = entries.map Prod.fst
    ∧ ((createMapComposedInstance entries deps c).2).getD i ("", emptyObj)
        = ((entries.getD i ("", skipEffDesign)).1,
           ((entries.getD i ("", skipEffDesign)).2.create deps
             ((createMapComposedInstance (List.take i entries) deps c).1)).2) := by
  refine ⟨mapCompose_keys entries deps c, ?_⟩
  induction entries generalizing i c with
  | nil => simp at h
  | cons p rest ih =>
    obtain ⟨k, d⟩ := p
    cases i with
    | zero =>
      simp [createMapComposedInstance, List.getD_cons_zero, List.take]
    | succ i =>
      have h' : i < rest.length := by simpa using h
      simpa [createMapComposedInstance, List.getD_cons_succ,
        List.take_succ_cons] using ih ((d.create deps c).1) i h'

/-- C8 witness: the map-mode theorem applied at a concrete one-entry
map. -/
theorem claim_C8_witness :
    (0 : Nat) < ([("x", skipEffDesign)] : List (Key × EffDesign)).length ∧
    (((createMapComposedInstance [("x", skipEffDesign)] Value.undefined 0).2).map
          Prod.fst
        = ([("x", skipEffDesign)] : List (Key × EffDesign)).map Prod.fst
      ∧ ((createMapComposedInstance [("x", skipEffDesign)] Value.undefined 0).2).getD
            0 ("", emptyObj)
        = ((([("x", skipEffDesign)] : List (Key × EffDesign)).getD 0
              ("", skipEffDesign)).1,
           ((([("x", skipEffDesign)] : List (Key × EffDesign)).getD 0
              ("", skipEffDesign)).2.create Value.undefined
             ((createMapComposedInstance
                (List.take 0 [("x", skipEffDesign)]) Value.undefined 0).1)).2)) :=
  ⟨by decide, claim_C8_map_mode [("x", skipEffDesign)] Value.undefined 0 0 (by decide)⟩

/-- C9 (confirmed): a `design(parent, child)` call whose child is neither a
function nor a value exposing `create` fails with `InvalidArgument` during
the `design` call itself; no design is returned, so no failure can be
deferred to `create`. -/
theorem claim_C9_invalid_child_errors_at_design {Deps Parent Inst : Type}
    (parentDesign : TracedDesign Deps Parent) :
    design2 parentDesign (ChildArg.invalid : ChildArg Deps Parent Inst)
      = .error DesignError.invalidArgument := rfl

/-- Membership in the facade's enumerated own keys coincides with plan
membership. -/
theorem proxyOwnKeys_contains (m : Plan) (k : Key) :
    (proxyOwnKeys m).contains k = mapHas m k := by
  induction m with
  | nil => rfl
  | cons p rest ih =>
    obtain ⟨k', e⟩ := p
    simp only [proxyOwnKeys, mapKeys, List.map_cons, List.contains_cons,
      mapHas, mapGet] at *
    by_cases h : k' = k
    · simp [h]
    · simp only [h, if_false, Bool.false_eq_true]
      rw [← ih]
      have : (k == k') = false := by
        simp [Ne.symm h]
      simp [this, proxyOwnKeys, mapKeys]

/-- C10 (confirmed): assigning to a key absent from the plan mutates the
last instance and reports success for a non-empty list, yet the facade
still does not expose the key afterwards: `has` stays false, the key is
absent from the enumerated own keys, and a read returns `undefined`. -/
theorem claim_C10_unknown_key_stays_invisible (plan : Plan)
    (instances : List Obj) (k : Key) (v : Value) (o2 : Obj)
    (hplan : mapGet plan k = none)
    (hne : instances ≠ [])
    (ho : ordinarySet (instances.getD (instances.length - 1) emptyObj) k v
        = some o2) :
    proxySet plan instances k v
      = some (instances.set (instances.length - 1) o2, true)
    ∧ proxyHas plan k = false
    ∧ (proxyOwnKeys plan).contains k = false
    ∧ proxyGet plan (instances.set (instances.length - 1) o2) k
        = Value.undefined := by
  have hlen : instances.length > 0 := by
    cases instances with
    | nil => exact absurd rfl hne
    | cons a l => simp
  have hidx : instances.length - 1 < instances.length := by omega
  have ho2 : ordinarySet instances[instances.length - 1] k v = some o2 := by
    rw [← List.getD_eq_getElem instances emptyObj hidx]
    exact ho
  refine ⟨?_, ?_, ?_, ?_⟩
  · simp [proxySet, hplan, hlen, ho2]
  · simp [proxyHas, mapHas, hplan]
  · rw [proxyOwnKeys_contains]
    simp [mapHas, hplan]
  · simp [proxyGet, hplan]

/-- C10 witness: the invisibility theorem applied at a concrete singleton
instance list and a fresh key. -/
theorem claim_C10_witness :
    mapGet (buildPropertyMap [emptyObj]) "z" = none ∧
    ([emptyObj] : List Obj) ≠ [] ∧
    ordinarySet (([emptyObj] : List Obj).getD
        (([emptyObj] : List Obj).length - 1) emptyObj) "z" (Value.int 3)
      = some ⟨[("z", Desc.dataDesc (Value.int 3) true)], []⟩ ∧
    (proxySet (buildPropertyMap [emptyObj]) [emptyObj] "z" (Value.int 3)
        = some (([emptyObj] : List Obj).set (([emptyObj] : List Obj).length - 1)
            ⟨[("z", Desc.dataDesc (Value.int 3) true)], []⟩, true)
      ∧ proxyHas (buildPropertyMap [emptyObj]) "z" = false
      ∧ (proxyOwnKeys (buildPropertyMap [emptyObj])).contains "z" = false
      ∧ proxyGet (buildPropertyMap [emptyObj])
          (([emptyObj] : List Obj).set (([emptyObj] : List Obj).length - 1)
            ⟨[("z", Desc.dataDesc (Value.int 3) true)], []⟩) "z"
        = Value.undefined) :=
  ⟨by decide, by decide, by decide,
    claim_C10_unknown_key_stays_invisible _ _ _ _ _ (by decide) (by decide)
      (by decide)⟩

/-- Looking a plan up right after storing it under the same list identity
succeeds. -/
theorem lookupCache_storeCache_self (c : PlanCache) (id : Nat) (p : Plan) :
    lookupCache (storeCache c id p) id = some p := by
  induction c with
  | nil => simp [storeCache, lookupCache]
  | cons q rest ih =>
    obtain ⟨id', p'⟩ := q
    by_cases h : id' = id
    · simp [storeCache, h, lookupCache]
    · simp [storeCache, h, lookupCache, ih]

/-- C6 (amended): with a cold cache, the first `create` builds the plan
from its own (first-run) instances and caches it; the second `create`
leaves the cache untouched and reuses the first call's plan while
re-running every setup to produce fresh instances. Because the reused plan
captures first-run descriptors, the second facade is not guaranteed to
reflect only the second-run instances. -/
theorem claim_C6_plan_cached_once (listId : Nat) (items : List EffDesign)
    (deps : Value) (st : CLState)
    (h : lookupCache st.cache listId = none) :
    ((createListComposedInstance listId items deps st).2).plan
        = buildPropertyMap
            ((createListComposedInstance listId items deps st).2).instances
    ∧ ((createListComposedInstance listId items deps
          ((createListComposedInstance listId items deps st).1)).1).cache
        = ((createListComposedInstance listId items deps st).1).cache
    ∧ ((createListComposedInstance listId items deps
          ((createListComposedInstance listId items deps st).1)).2).plan
        = ((createListComposedInstance listId items deps st).2).plan
    ∧ ((createListComposedInstance listId items deps st).2).instances
        = (createInstances items deps st.counter).2
    ∧ ((createListComposedInstance listId items deps
          ((createListComposedInstance listId items deps st).1)).2).instances
        = (createInstances items deps
            ((createListComposedInstance listId items deps st).1).counter).2 := by
  simp [createListComposedInstance, h, lookupCache_storeCache_self]

/-- C6 witness: the caching theorem applied at a concrete design list and a
cold cache. -/
theorem claim_C6_witness :
    lookupCache (CLState.mk 0 []).cache 0 = none ∧
    (cexRun1.2.plan = buildPropertyMap cexRun1.2.instances
      ∧ cexRun2.1.cache = cexRun1.1.cache
      ∧ cexRun2.2.plan = cexRun1.2.plan
      ∧ cexRun1.2.instances
          = (createInstances [counterGetterDesign] Value.undefined
              (CLState.mk 0 []).counter).2
      ∧ cexRun2.2.instances
          = (createInstances [counterGetterDesign] Value.undefined
              cexRun1.1.counter).2) :=
  ⟨rfl, claim_C6_plan_cached_once 0 [counterGetterDesign] Value.undefined
    (CLState.mk 0 []) rfl⟩

/-- C6 counterexample: the second facade does not reflect only the
second-run instances: its accessor read goes through the first run's
captured getter and yields 0, while the second-run instance itself (and a
freshly built plan over it) yields 1. -/
theorem claim_C6_counterexample :
    proxyGet cexRun2.2.plan cexRun2.2.instances "id" = Value.int 0 ∧
    proxyGet (buildPropertyMap cexRun2.2.instances) cexRun2.2.instances "id"
      = Value.int 1 ∧
    ordinaryGet (cexRun2.2.instances.getD 0 emptyObj) "id" = Value.int 1 ∧
    Value.int 0 ≠ Value.int 1 := by
  exact ⟨by decide, by decide, by decide, by decide⟩

end Miximum
